import Mathlib

/-!
Verification of the icon generator in create-icon.py.

The program has two parts: a pure pixel function icon(x, y) mapping integer
coordinates to an RGBA tuple, and an encoder create_png(width, height, pixels)
producing a PNG byte stream.  Both are embedded below as executable Lean
definitions translated branch for branch from the source.

On floating point: the source computes r = math.sqrt(dx*dx + dy*dy) with
integer dx, dy and compares r against the integer thresholds 460, 440, 400,
340, 300, 125, 120.  Since dx*dx + dy*dy is an exact integer, math.sqrt is
correctly rounded and strictly monotone, the squares of all thresholds are
exactly representable doubles, and the gap between sqrt(t*t + 1) and t
(about 1/(2t)) vastly exceeds one unit in the last place at these magnitudes,
the float comparison r > t (resp. r < t) holds exactly when
dx*dx + dy*dy > t*t (resp. < t*t).  The embedding therefore compares squared
distances over the natural numbers.

Likewise angle = math.atan2(dy, dx) with dy, dx nonnegative integers is
compared against 0.8 and 1.5.  For dx > 0 the real comparison
atan2(dy, dx) < c is equivalent to dy/dx < tan(c); for dx = 0 and dy > 0 the
angle is pi/2, exceeding both constants.  The constants tan08num and tan15num
below satisfy tan c - 10^-16 < T/10^16 < tan c, where c is the exact double
nearest the literal; an exhaustive check over the whole relevant range
dx, dy <= 512 shows every ratio dy/dx lies at distance at least 6e-8 from
tan c, far beyond both the 10^-16 threshold slack and the sub-ulp error of
the library atan2, so the integer comparison dy * 10^16 < dx * T reproduces
the float comparison at every pixel the program ever evaluates.
-/

/-- An RGBA color: red, green, blue, alpha, each an 8-bit value in the
source program. -/
abbrev Color := ℕ × ℕ × ℕ × ℕ

/-- Numerator of a rational lower approximation of tan(0.8) with denominator
10^16; see the file header for why comparing against it reproduces the float
test angle < 0.8 at every pixel of the canvas. -/
def tan08num : ℕ := 10296385570503641

/-- Numerator of a rational lower approximation of tan(1.5) with denominator
10^16; see the file header. -/
def tan15num : ℕ := 141014199471717193

/-- The test angle < 0.8 of the source, where angle = atan2(dy, dx), as an
exact integer comparison (equivalent on the canvas, see the file header).
For dx = 0 this yields false, matching atan2(dy, 0) = pi/2 for dy > 0; the
point dx = dy = 0 never reaches the angle test because of the guard
r > 300. -/
def angleLt08 (dy dx : ℕ) : Bool := dy * 10000000000000000 < dx * tan08num

/-- The test angle < 1.5 of the source, as an exact integer comparison. -/
def angleLt15 (dy dx : ℕ) : Bool := dy * 10000000000000000 < dx * tan15num

/-- The body of icon after dx, dy have been formed: the source computes
dx, dy = abs(x - 512), abs(y - 512) and from then on depends only on dx, dy.
The two angle comparisons are passed as parameters lt08, lt15 so that
properties of the branch structure can be stated for any angle predicate;
the program instantiates them with angleLt08, angleLt15.  The nested arc
block of the source (lines 34-39) falls through when neither angle test
fires, which flattens to the two guarded branches below. -/
def iconCore (lt08 lt15 : ℕ → ℕ → Bool) (dx dy : ℕ) : Color :=
  let s : ℕ := dx * dx + dy * dy
  if 211600 < s then (0, 0, 0, 0)
  else if 193600 < s then (102, 136, 204, 255)
  else if 160000 < s then (0, 0, 0, 255)
  else if dy < 60 ∧ dx < 350 then (255, 153, 0, 255)
  else if dx < 60 ∧ dy < 350 then (102, 204, 204, 255)
  else if (90000 < s ∧ s < 115600) ∧ lt08 dy dx then (204, 119, 255, 255)
  else if (90000 < s ∧ s < 115600) ∧ lt15 dy dx then (102, 136, 204, 255)
  else if s < 14400 then (153, 204, 255, 255)
  else if s < 15625 then (102, 136, 204, 255)
  else (0, 8, 20, 255)

/-- icon with the angle comparisons abstracted: the absolute offsets from the
center (512, 512) are formed exactly as in the source. -/
def iconWithAngle (lt08 lt15 : ℕ → ℕ → Bool) (x y : ℤ) : Color :=
  iconCore lt08 lt15 (x - 512).natAbs (y - 512).natAbs

/-- The pixel function icon of create-icon.py, lines 17-45. -/
def icon (x y : ℤ) : Color := iconWithAngle angleLt08 angleLt15 x y

/-- Squared Euclidean distance of (x, y) from the center (512, 512). -/
def dist2 (x y : ℤ) : ℕ :=
  (x - 512).natAbs * (x - 512).natAbs + (y - 512).natAbs * (y - 512).natAbs

theorem icon_eq_core (x y : ℤ) :
    icon x y = iconCore angleLt08 angleLt15 (x - 512).natAbs (y - 512).natAbs := rfl

/-- Claim C1 (correction witness): the Pixel Function at the center (512, 512)
does not return the light-blue center-disc color (153, 204, 255, 255). -/
theorem icon_center_not_lightblue : icon 512 512 ≠ (153, 204, 255, 255) := by
  decide

/-- Claim C1 (amended): at the center (512, 512) both offsets are 0, so the
first-evaluated cross-bar check dy < 60 and dx < 350 fires before the
center-disc rule and the Pixel Function returns the amber bar color
(255, 153, 0, 255). -/
theorem icon_center_eq_amber : icon 512 512 = (255, 153, 0, 255) := by
  decide

/-- Claim C2 (correction witness): the pixel (788, 880) = (512+276, 512+368)
lies at squared distance 276^2 + 368^2 = 460^2 from the center, hence at
r exactly 460.0, yet the Pixel Function does not return an alpha-0 color:
the alpha component there is 255. -/
theorem icon_radius460_opaque :
    dist2 788 880 = 460 * 460 ∧ (icon 788 880).2.2.2 = 255 := by
  decide

/-- Claim C2 (amended): at every pixel whose distance from the center is
exactly 460.0, the guard r > 460 is false and the guard r > 440 is true, so
the Pixel Function returns the opaque blue-gray ring color
(102, 136, 204, 255) rather than a transparent color. -/
theorem icon_radius460_eq_ring (x y : ℤ) (h : dist2 x y = 460 * 460) :
    icon x y = (102, 136, 204, 255) := by
  rw [icon_eq_core]
  unfold dist2 at h
  unfold iconCore
  rw [h]
  norm_num

/-- Witness for icon_radius460_eq_ring at the concrete pixel (788, 880). -/
theorem icon_radius460_eq_ring_witness :
    dist2 788 880 = 460 * 460 ∧ icon 788 880 = (102, 136, 204, 255) :=
  ⟨by decide, icon_radius460_eq_ring 788 880 (by decide)⟩

/-- Claim C3: any coordinate inside both cross-bars (both absolute offsets
below 60, which also places it inside r <= 400 so no outer or ring rule
matches) receives the amber bar color (255, 153, 0, 255), the outcome of the
first-evaluated bar check. -/
theorem icon_double_bar_amber (x y : ℤ)
    (hr : dist2 x y ≤ 160000)
    (hx : (x - 512).natAbs < 60) (hy : (y - 512).natAbs < 60) :
    icon x y = (255, 153, 0, 255) := by
  rw [icon_eq_core]
  unfold dist2 at hr
  unfold iconCore
  have h1 : ¬ (211600 < (x - 512).natAbs * (x - 512).natAbs
      + (y - 512).natAbs * (y - 512).natAbs) := by omega
  have h2 : ¬ (193600 < (x - 512).natAbs * (x - 512).natAbs
      + (y - 512).natAbs * (y - 512).natAbs) := by omega
  have h3 : ¬ (160000 < (x - 512).natAbs * (x - 512).natAbs
      + (y - 512).natAbs * (y - 512).natAbs) := by omega
  simp only [h1, h2, h3, if_false]
  have h4 : (y - 512).natAbs < 60 ∧ (x - 512).natAbs < 350 := ⟨hy, by omega⟩
  simp [h4]

/-- Witness for icon_double_bar_amber at the concrete pixel (500, 530). -/
theorem icon_double_bar_amber_witness :
    dist2 500 530 ≤ 160000 ∧ icon 500 530 = (255, 153, 0, 255) :=
  ⟨by decide, icon_double_bar_amber 500 530 (by decide) (by decide) (by decide)⟩

/-- Claim C4: for any angle predicates (in particular those computed from
atan2), a pixel with 300 < r < 340 lying in neither cross-bar whose angle
tests both report angle not below 0.8 and not below 1.5 falls through the
arc block with no color assigned, and since r > 300 rules out both
center-disc rules, the Pixel Function returns the dark-navy background
(0, 8, 20, 255). -/
theorem icon_arc_fallthrough_background (lt08 lt15 : ℕ → ℕ → Bool) (x y : ℤ)
    (hlo : 90000 < dist2 x y) (hhi : dist2 x y < 115600)
    (hbar1 : ¬ ((y - 512).natAbs < 60 ∧ (x - 512).natAbs < 350))
    (hbar2 : ¬ ((x - 512).natAbs < 60 ∧ (y - 512).natAbs < 350))
    (ha08 : lt08 (y - 512).natAbs (x - 512).natAbs = false)
    (ha15 : lt15 (y - 512).natAbs (x - 512).natAbs = false) :
    iconWithAngle lt08 lt15 x y = (0, 8, 20, 255) := by
  unfold dist2 at hlo hhi
  unfold iconWithAngle iconCore
  have h1 : ¬ (211600 < (x - 512).natAbs * (x - 512).natAbs
      + (y - 512).natAbs * (y - 512).natAbs) := by omega
  have h2 : ¬ (193600 < (x - 512).natAbs * (x - 512).natAbs
      + (y - 512).natAbs * (y - 512).natAbs) := by omega
  have h3 : ¬ (160000 < (x - 512).natAbs * (x - 512).natAbs
      + (y - 512).natAbs * (y - 512).natAbs) := by omega
  have h8 : ¬ ((x - 512).natAbs * (x - 512).natAbs
      + (y - 512).natAbs * (y - 512).natAbs < 14400) := by omega
  have h9 : ¬ ((x - 512).natAbs * (x - 512).natAbs
      + (y - 512).natAbs * (y - 512).natAbs < 15625) := by omega
  simp [h1, h2, h3, hbar1, hbar2, ha08, ha15, h8, h9]

/-- Witness for icon_arc_fallthrough_background with the always-false angle
predicate at the concrete pixel (742, 742), which has squared distance
105800 from the center and lies in neither bar. -/
theorem icon_arc_fallthrough_background_witness :
    90000 < dist2 742 742 ∧ dist2 742 742 < 115600 ∧
    iconWithAngle (fun _ _ => false) (fun _ _ => false) 742 742 = (0, 8, 20, 255) :=
  ⟨by decide, by decide,
    icon_arc_fallthrough_background (fun _ _ => false) (fun _ _ => false) 742 742
      (by decide) (by decide) (by decide) (by decide) rfl rfl⟩

/-- The four components of a color in red-green-blue-alpha order, the byte
order in which bytes(pixels(x, y)) serializes the tuple. -/
def colorList (c : Color) : List ℕ := [c.1, c.2.1, c.2.2.1, c.2.2.2]

/-- All four components are valid byte values. -/
def InRange (c : Color) : Prop :=
  c.1 < 256 ∧ c.2.1 < 256 ∧ c.2.2.1 < 256 ∧ c.2.2.2 < 256

instance (c : Color) : Decidable (InRange c) := by
  unfold InRange; infer_instance

/-- The conversion bytes(pixels(x, y)) of the source, line 11: it yields the
four component bytes, and raises (modelled as none) when a component is not
a byte value. -/
def colorBytes (c : Color) : Option (List ℕ) :=
  if InRange c then some (colorList c) else none

/-- The inner loop of create_png, line 10-11: the bytes appended for the
first n columns of row y, in increasing column order; none as soon as one
bytes() conversion raises. -/
def rowData (P : ℕ → ℕ → Color) (y : ℕ) : ℕ → Option (List ℕ)
  | 0 => some []
  | n + 1 =>
      (rowData P y n).bind fun acc =>
        (colorBytes (P n y)).map fun px => acc ++ px

/-- The outer loop of create_png, lines 7-11: the raw buffer after the first
n rows, each row contributing the filter byte 0 followed by its pixel
bytes. -/
def rawData (P : ℕ → ℕ → Color) (W : ℕ) : ℕ → Option (List ℕ)
  | 0 => some []
  | n + 1 =>
      (rawData P W n).bind fun acc =>
        (rowData P n W).map fun row => acc ++ (0 :: row)

/-- The raw scanline buffer of create_png for a W x H canvas. -/
def rawBuffer (W H : ℕ) (P : ℕ → ℕ → Color) : Option (List ℕ) :=
  rawData P W H

/-- Reference form of one row: the concatenation over x of the four bytes of
P(x, y), in increasing column order. -/
def rowListSpec (P : ℕ → ℕ → Color) (y : ℕ) : ℕ → List ℕ
  | 0 => []
  | n + 1 => rowListSpec P y n ++ colorList (P n y)

/-- Reference form of the raw buffer: the row-major concatenation over y of
a filter byte 0 followed by the bytes of row y. -/
def rawListSpec (P : ℕ → ℕ → Color) (W : ℕ) : ℕ → List ℕ
  | 0 => []
  | n + 1 => rawListSpec P W n ++ (0 :: rowListSpec P n W)

theorem colorBytes_of_inRange (c : Color) (h : InRange c) :
    colorBytes c = some (colorList c) := by
  unfold colorBytes
  simp [h]

theorem rowData_eq_spec (P : ℕ → ℕ → Color) (y W : ℕ)
    (h : ∀ x, x < W → InRange (P x y)) :
    rowData P y W = some (rowListSpec P y W) := by
  induction W with
  | zero => rfl
  | succ n ih =>
      have hn : rowData P y n = some (rowListSpec P y n) :=
        ih fun x hx => h x (Nat.lt_succ_of_lt hx)
      have hc : colorBytes (P n y) = some (colorList (P n y)) :=
        colorBytes_of_inRange _ (h n (Nat.lt_succ_self n))
      simp [rowData, hn, hc, rowListSpec]

theorem rawData_eq_spec (P : ℕ → ℕ → Color) (W H : ℕ)
    (h : ∀ x y, x < W → y < H → InRange (P x y)) :
    rawData P W H = some (rawListSpec P W H) := by
  induction H with
  | zero => rfl
  | succ n ih =>
      have hn : rawData P W n = some (rawListSpec P W n) :=
        ih fun x y hx hy => h x y hx (Nat.lt_succ_of_lt hy)
      have hr : rowData P n W = some (rowListSpec P n W) :=
        rowData_eq_spec P n W fun x hx => h x n hx (Nat.lt_succ_self n)
      simp [rawData, hn, hr, rawListSpec]

theorem rowListSpec_length (P : ℕ → ℕ → Color) (y W : ℕ) :
    (rowListSpec P y W).length = W * 4 := by
  induction W with
  | zero => rfl
  | succ n ih => simp [rowListSpec, ih, colorList]; omega

theorem rawListSpec_length (P : ℕ → ℕ → Color) (W H : ℕ) :
    (rawListSpec P W H).length = H * (1 + W * 4) := by
  induction H with
  | zero => simp [rawListSpec]
  | succ n ih =>
      simp [rawListSpec, ih, rowListSpec_length]
      ring

theorem rawBuffer_eq_spec (W H : ℕ) (P : ℕ → ℕ → Color)
    (h : ∀ x y, x < W → y < H → InRange (P x y)) :
    rawBuffer W H P = some (rawListSpec P W H) :=
  rawData_eq_spec P W H h

/-- Big-endian 4-byte encoding of n, the effect of struct.pack with format
major-I on an in-range value. -/
def be32 (n : ℕ) : List ℕ :=
  [n / 16777216 % 256, n / 65536 % 256, n / 256 % 256, n % 256]

/-- The chunk helper of create_png, lines 4-6: 4-byte big-endian payload
length, then ctype ++ data, then the 4-byte big-endian value of
crc(ctype ++ data) masked to 32 bits.  The checksum routine zlib.crc32 is an
external library function, passed here as the parameter crc. -/
def chunk (crc : List ℕ → ℕ) (ctype data : List ℕ) : List ℕ :=
  be32 data.length ++ (ctype ++ data) ++ be32 (crc (ctype ++ data) % 4294967296)

/-- ASCII bytes of the type tag IHDR. -/
def ihdrType : List ℕ := [73, 72, 68, 82]

/-- ASCII bytes of the type tag IDAT. -/
def idatType : List ℕ := [73, 68, 65, 84]

/-- ASCII bytes of the type tag IEND. -/
def iendType : List ℕ := [73, 69, 78, 68]

/-- The fixed 8-byte PNG signature of line 12. -/
def pngSig : List ℕ := [137, 80, 78, 71, 13, 10, 26, 10]

/-- The IHDR payload of line 13: width and height big-endian, bit depth 8,
color type 6, then compression, filter and interlace methods all 0. -/
def ihdrData (W H : ℕ) : List ℕ := be32 W ++ be32 H ++ [8, 6, 0, 0, 0]

/-- create_png of lines 3-15.  The compression routine zlib.compress and the
checksum routine zlib.crc32 are external library functions, passed as the
parameters compress and crc; the result is none when some bytes() conversion
of a pixel raises. -/
def create_png (compress : List ℕ → List ℕ) (crc : List ℕ → ℕ)
    (W H : ℕ) (P : ℕ → ℕ → Color) : Option (List ℕ) :=
  (rawBuffer W H P).map fun raw =>
    pngSig ++ chunk crc ihdrType (ihdrData W H)
      ++ chunk crc idatType (compress raw)
      ++ chunk crc iendType []

theorem take_append_len (l1 l2 : List ℕ) (n : ℕ) (h : l1.length = n) :
    (l1 ++ l2).take n = l1 := by
  subst h
  induction l1 with
  | nil => rfl
  | cons a t ih => simp [ih]

theorem drop_append_len (l1 l2 : List ℕ) (n : ℕ) (h : l1.length = n) :
    (l1 ++ l2).drop n = l2 := by
  subst h
  induction l1 with
  | nil => rfl
  | cons a t ih => simp [ih]

theorem be32_length (n : ℕ) : (be32 n).length = 4 := rfl

/-- Claim C5: the raw scanline buffer is the row-major concatenation, row by
row, of one filter byte 0 followed by the four bytes of each pixel in
red-green-blue-alpha order; its length is H * (1 + W * 4); and the 4 x 4
canvas with the constant pixel (1, 2, 3, 4) yields the explicit 68-byte
buffer whose rows each start with 0 followed by four copies of
1, 2, 3, 4. -/
theorem rawBuffer_rowMajor :
    (∀ (W H : ℕ) (P : ℕ → ℕ → Color),
        (∀ x y, x < W → y < H → InRange (P x y)) →
        rawBuffer W H P = some (rawListSpec P W H) ∧
        (rawListSpec P W H).length = H * (1 + W * 4)) ∧
    rawBuffer 4 4 (fun _ _ => (1, 2, 3, 4)) =
      some [0, 1, 2, 3, 4, 1, 2, 3, 4, 1, 2, 3, 4, 1, 2, 3, 4,
            0, 1, 2, 3, 4, 1, 2, 3, 4, 1, 2, 3, 4, 1, 2, 3, 4,
            0, 1, 2, 3, 4, 1, 2, 3, 4, 1, 2, 3, 4, 1, 2, 3, 4,
            0, 1, 2, 3, 4, 1, 2, 3, 4, 1, 2, 3, 4, 1, 2, 3, 4] := by
  refine ⟨fun W H P h => ⟨rawBuffer_eq_spec W H P h, rawListSpec_length P W H⟩, ?_⟩
  decide

/-- Witness for rawBuffer_rowMajor at the concrete instance W = 2, H = 1 with
the constant pixel (9, 8, 7, 6). -/
theorem rawBuffer_rowMajor_witness :
    rawBuffer 2 1 (fun _ _ => (9, 8, 7, 6)) = some [0, 9, 8, 7, 6, 9, 8, 7, 6] ∧
    (rawListSpec (fun _ _ => (9, 8, 7, 6)) 2 1).length = 1 * (1 + 2 * 4) := by
  have h := rawBuffer_rowMajor.1 2 1 (fun _ _ => (9, 8, 7, 6))
    (fun _ _ _ _ => (by decide : InRange (9, 8, 7, 6)))
  exact ⟨h.1.trans (by decide), h.2⟩

/-- Claim C6: the output of create_png is the fixed 8-byte signature followed
by the IHDR chunk (13-byte payload: width big-endian, height big-endian,
then 8, 6, 0, 0, 0), the IDAT chunk carrying the compressed raw buffer, and
the empty IEND chunk, in that order. -/
theorem create_png_structure (compress : List ℕ → List ℕ) (crc : List ℕ → ℕ)
    (W H : ℕ) (P : ℕ → ℕ → Color) (raw : List ℕ)
    (h : rawBuffer W H P = some raw) :
    create_png compress crc W H P =
      some (pngSig ++ chunk crc ihdrType (be32 W ++ be32 H ++ [8, 6, 0, 0, 0])
        ++ chunk crc idatType (compress raw) ++ chunk crc iendType []) ∧
    (be32 W ++ be32 H ++ [8, 6, 0, 0, 0]).length = 13 ∧
    pngSig = [137, 80, 78, 71, 13, 10, 26, 10] ∧
    ihdrType = [73, 72, 68, 82] ∧ idatType = [73, 68, 65, 84] ∧
    iendType = [73, 69, 78, 68] := by
  refine ⟨?_, by simp [be32], rfl, rfl, rfl, rfl⟩
  simp [create_png, h, ihdrData]

/-- Witness for create_png_structure at W = H = 1, constant pixel
(1, 2, 3, 4), identity compression and the zero checksum routine. -/
theorem create_png_structure_witness :
    create_png id (fun _ => 0) 1 1 (fun _ _ => (1, 2, 3, 4)) =
      some (pngSig ++ chunk (fun _ => 0) ihdrType (be32 1 ++ be32 1 ++ [8, 6, 0, 0, 0])
        ++ chunk (fun _ => 0) idatType (id [0, 1, 2, 3, 4])
        ++ chunk (fun _ => 0) iendType []) :=
  (create_png_structure id (fun _ => 0) 1 1 (fun _ _ => (1, 2, 3, 4))
    [0, 1, 2, 3, 4] (by decide)).1

/-- Claim C7: an emitted chunk is the 4-byte big-endian payload length, the
type tag, the payload, then the 4-byte big-endian checksum over tag plus
payload, so recomputing the checksum over those bytes reproduces the stored
trailing 4 bytes. -/
theorem chunk_layout (crc : List ℕ → ℕ) (t d : List ℕ) (ht : t.length = 4) :
    (chunk crc t d).length = d.length + 12 ∧
    (chunk crc t d).take 4 = be32 d.length ∧
    ((chunk crc t d).drop 4).take 4 = t ∧
    ((chunk crc t d).drop 8).take d.length = d ∧
    (chunk crc t d).drop (8 + d.length) = be32 (crc (t ++ d) % 4294967296) := by
  have h1 : chunk crc t d
      = be32 d.length ++ ((t ++ d) ++ be32 (crc (t ++ d) % 4294967296)) := by
    simp [chunk]
  have h2 : chunk crc t d
      = (be32 d.length ++ t) ++ (d ++ be32 (crc (t ++ d) % 4294967296)) := by
    simp [chunk]
  have h3 : chunk crc t d
      = ((be32 d.length ++ t) ++ d) ++ be32 (crc (t ++ d) % 4294967296) := by
    simp [chunk]
  refine ⟨?_, ?_, ?_, ?_, ?_⟩
  · rw [h1]
    simp [be32_length, ht]
    omega
  · rw [h1]
    exact take_append_len _ _ 4 (be32_length _)
  · rw [h1, drop_append_len _ _ 4 (be32_length _), List.append_assoc]
    exact take_append_len _ _ 4 ht
  · rw [h2, drop_append_len _ _ 8 (by simp [be32_length, ht])]
    exact take_append_len _ _ _ rfl
  · rw [h3]
    exact drop_append_len _ _ _ (by simp [be32_length, ht]; omega)

/-- Witness for chunk_layout with the list-sum checksum routine, tag
[1, 2, 3, 4] and payload [5, 6]. -/
theorem chunk_layout_witness :
    (chunk (fun l => l.sum) [1, 2, 3, 4] [5, 6]).length = [5, 6].length + 12 ∧
    (chunk (fun l => l.sum) [1, 2, 3, 4] [5, 6]).take 4 = be32 [5, 6].length ∧
    ((chunk (fun l => l.sum) [1, 2, 3, 4] [5, 6]).drop 4).take 4 = [1, 2, 3, 4] ∧
    ((chunk (fun l => l.sum) [1, 2, 3, 4] [5, 6]).drop 8).take [5, 6].length = [5, 6] ∧
    (chunk (fun l => l.sum) [1, 2, 3, 4] [5, 6]).drop (8 + [5, 6].length) =
      be32 ((fun (l : List ℕ) => l.sum) ([1, 2, 3, 4] ++ [5, 6]) % 4294967296) :=
  chunk_layout (fun l => l.sum) [1, 2, 3, 4] [5, 6] rfl

/-- Claim C8: the IDAT payload is exactly the compressed raw scanline
buffer, so any decompression routine that inverts the compression routine
recovers from it the raw buffer of length H * (1 + W * 4). -/
theorem idat_roundtrip (compress decompress : List ℕ → List ℕ)
    (crc : List ℕ → ℕ) (W H : ℕ) (P : ℕ → ℕ → Color)
    (hinv : ∀ b, decompress (compress b) = b)
    (h : ∀ x y, x < W → y < H → InRange (P x y)) :
    create_png compress crc W H P =
      some (pngSig ++ chunk crc ihdrType (ihdrData W H)
        ++ chunk crc idatType (compress (rawListSpec P W H))
        ++ chunk crc iendType []) ∧
    decompress (compress (rawListSpec P W H)) = rawListSpec P W H ∧
    (rawListSpec P W H).length = H * (1 + W * 4) := by
  refine ⟨?_, hinv _, rawListSpec_length P W H⟩
  simp [create_png, rawBuffer_eq_spec W H P h]

/-- Witness for idat_roundtrip with identity compression and decompression
at W = H = 1 and the constant pixel (1, 2, 3, 4). -/
theorem idat_roundtrip_witness :
    create_png id (fun _ => 7) 1 1 (fun _ _ => (1, 2, 3, 4)) =
      some (pngSig ++ chunk (fun _ => 7) ihdrType (ihdrData 1 1)
        ++ chunk (fun _ => 7) idatType
            (id (rawListSpec (fun _ _ => (1, 2, 3, 4)) 1 1))
        ++ chunk (fun _ => 7) iendType []) ∧
    id (id (rawListSpec (fun _ _ => (1, 2, 3, 4)) 1 1)) =
      rawListSpec (fun _ _ => (1, 2, 3, 4)) 1 1 ∧
    (rawListSpec (fun _ _ => (1, 2, 3, 4)) 1 1).length = 1 * (1 + 1 * 4) :=
  idat_roundtrip id id (fun _ => 7) 1 1 (fun _ _ => (1, 2, 3, 4))
    (fun _ => rfl) (fun _ _ _ _ => (by decide : InRange (1, 2, 3, 4)))

theorem natAbs_mirror (x : ℤ) : (1024 - x - 512).natAbs = (x - 512).natAbs := by
  omega

/-- Claim C9: the pixel function is mirror-symmetric about both axes through
the center, because it depends on its arguments only through the absolute
offsets from (512, 512). -/
theorem icon_mirror_symmetric (x y : ℤ) :
    icon x y = icon (1024 - x) y ∧ icon x y = icon x (1024 - y) := by
  unfold icon iconWithAngle
  rw [natAbs_mirror x, natAbs_mirror y]
  exact ⟨rfl, rfl⟩

theorem iconCore_inRange_alpha (lt08 lt15 : ℕ → ℕ → Bool) (dx dy : ℕ) :
    InRange (iconCore lt08 lt15 dx dy) ∧
    (iconCore lt08 lt15 dx dy).2.2.2 =
      (if 211600 < dx * dx + dy * dy then 0 else 255) := by
  by_cases h1 : 211600 < dx * dx + dy * dy
  · simp [iconCore, h1, InRange]
  · simp only [iconCore]
    simp only [h1, if_false]
    split_ifs <;> simp [InRange]

theorem icon_inRange_alpha (x y : ℤ) :
    InRange (icon x y) ∧
    (icon x y).2.2.2 = (if 211600 < dist2 x y then 0 else 255) := by
  rw [icon_eq_core]
  unfold dist2
  exact iconCore_inRange_alpha angleLt08 angleLt15 (x - 512).natAbs (y - 512).natAbs

theorem rawData_isSome (P : ℕ → ℕ → Color) (W H : ℕ)
    (h : ∀ x y, x < W → y < H → InRange (P x y)) :
    (rawData P W H).isSome := by
  rw [rawData_eq_spec P W H h]
  rfl

/-- Claim C10: every value of the pixel function has all four components in
the byte range; its alpha component is 0 exactly when the squared distance
from the center exceeds 460^2 (the condition r > 460) and 255 otherwise; so
the bytes() conversion succeeds on every pixel, and in particular the raw
buffer for the 1024 x 1024 canvas is built without error. -/
theorem icon_output_invariants :
    (∀ x y : ℤ, InRange (icon x y) ∧
      (icon x y).2.2.2 = (if 211600 < dist2 x y then 0 else 255) ∧
      (colorBytes (icon x y)).isSome) ∧
    (rawBuffer 1024 1024 (fun x y => icon x y)).isSome := by
  refine ⟨fun x y => ⟨(icon_inRange_alpha x y).1, (icon_inRange_alpha x y).2, ?_⟩, ?_⟩
  · unfold colorBytes
    rw [if_pos (icon_inRange_alpha x y).1]
    rfl
  · exact rawData_isSome _ _ _ fun x y _ _ => (icon_inRange_alpha x y).1
